import Mathlib

/-!
# Virtual block device (`vblock.c`) and interrupt shim (`biosboot.c`)

A shallow embedding of `blockio_read`, `blockio_write` (grub-core/map/lib/vblock.c)
and of `call_interrupt_wrapper`, `wimboot_boot` (grub-core/map/wimboot/biosboot.c).

Conventions
* Machine integers are natural numbers; every C operation that can wrap is written
  with an explicit reduction modulo `2 ^ 64` (`grub_efi_lba_t`, `grub_efi_uint64_t`)
  or modulo `2 ^ uintn_bits` (`grub_efi_uintn_t`) or modulo `2 ^ size_bits` (`size_t`
  and pointer arithmetic in `biosboot.c`).
* Memory is one flat byte-addressed store; a pointer is an address, the null pointer
  is address `0`.
* A division by zero (`len % block_size` with `block_size = 0`) has no result: the
  functions return `none` there.
* Functions of the repository that are called but not defined in the translated files
  (`vfat_read`, `file_read`, `emulate_int13`, `call_interrupt`, `load_pe`, a file's
  `read` function) are parameters; every
  call is recorded, with the values of its argument expressions, in a trace.
-/

namespace Wimboot

/-! ## Data model -/

/-- Status codes of the EFI block I/O protocol used by `vblock.c`. -/
inductive grub_efi_status_t
  | GRUB_EFI_SUCCESS
  | GRUB_EFI_INVALID_PARAMETER
  | GRUB_EFI_MEDIA_CHANGED
  | GRUB_EFI_BAD_BUFFER_SIZE
  | GRUB_EFI_WRITE_PROTECTED
  deriving DecidableEq, Repr

open grub_efi_status_t

/-- One byte of memory. -/
abbrev Byte := Fin 256

/-- Flat byte-addressed memory. -/
abbrev Mem := Nat → Byte

/-- The `type` tag of a virtual disk.  Only the comparison `type == VFAT` occurs in the
translated code; every other enumerator is represented by `OTHER`. -/
inductive disk_type
  | VFAT
  | OTHER
  deriving DecidableEq, Repr

/-- The media descriptor `grub_efi_block_io_media_t` (fields read by `vblock.c`):
`media_id` is a 32-bit value, `block_size` a 32-bit value, `last_block` a 64-bit LBA. -/
structure grub_efi_block_io_media_t where
  media_id : Nat
  read_only : Bool
  block_size : Nat
  last_block : Nat
  deriving DecidableEq, Repr

/-- The virtual disk `vdisk_t` (fields read by `vblock.c`).
`type == VFAT` is the synthesized-filesystem kind; otherwise `mem` selects the
memory-backed kind and `!mem` the file-backed kind.  `addr` is the base address
(memory-backed) or the byte offset in the backing file (file-backed), `lba` the
logical-block bias of the synthesized filesystem, `disk`/`file` the backing handle. -/
structure vdisk_t where
  type : disk_type
  mem : Bool
  disk : Bool
  file : Nat
  addr : Nat
  lba : Nat
  media : grub_efi_block_io_media_t
  deriving DecidableEq, Repr

/-- Constants of the build that are not defined in the translated files: the width in
bits of `grub_efi_uintn_t` (32 or 64) and the sector size `VDISK_SECTOR_SIZE` of the
synthesized filesystem. -/
structure Platform where
  uintn_bits : Nat
  VDISK_SECTOR_SIZE : Nat
  deriving DecidableEq, Repr

/-- The callees of `vblock.c` that live elsewhere in the repository.
`vfat_read lba count buf m` is the memory after the synthesized-filesystem reader ran;
`file_read disk file buf len offset m` is the memory after the backing-store accessor
ran, paired with `true` when the underlying read succeeded and `false` when it failed. -/
structure Collaborators where
  vfat_read : Nat → Nat → Nat → Mem → Mem
  file_read : Bool → Nat → Nat → Nat → Nat → Mem → Mem × Bool

/-- A recorded call to a collaborator, with the values of the argument expressions at
the call site.  `file_read` also records whether the underlying read succeeded. -/
inductive Call
  | vfat_read (lba count buf : Nat)
  | file_read (disk : Bool) (file buf len offset : Nat) (ok : Bool)
  deriving DecidableEq, Repr

/-- The state a block I/O call runs in: memory, the value of the environment variable
`enable_progress_indicator` (`none` when unset), and the trace of collaborator calls. -/
structure World where
  memory : Mem
  progress : Option String
  calls : List Call

/-! ## Machine arithmetic and memory primitives -/

/-- Reduction to a 64-bit unsigned value. -/
def u64 (n : Nat) : Nat := n % 2 ^ 64

/-- Reduction to a `grub_efi_uintn_t`. -/
def uintn (P : Platform) (n : Nat) : Nat := n % 2 ^ P.uintn_bits

/-- Modelled from the spec: the direct copy of `n` bytes from `src` to `dest`
(`grub_memcpy`, declared in a header that is not among the translated files).  Every
destination byte receives the byte the source held before the call. -/
def grub_memcpy (m : Mem) (dest src n : Nat) : Mem :=
  fun a => if dest ≤ a ∧ a < dest + n then m (src + (a - dest)) else m a

/-! ## `vblock.c` -/

/-- The function `blockio_read` of `vblock.c`, lines 33-86.  `buf` is the destination
pointer, `len` a `grub_efi_uintn_t`, `lba` a `grub_efi_lba_t`. -/
def blockio_read (P : Platform) (E : Collaborators) (data : vdisk_t) (w : World)
    (media_id lba len buf : Nat) : Option (grub_efi_status_t × World) :=
  if buf = 0 then some (GRUB_EFI_INVALID_PARAMETER, w)
  else if len = 0 then some (GRUB_EFI_SUCCESS, w)
  else if data.type = disk_type.VFAT then
    if P.VDISK_SECTOR_SIZE = 0 then none
    else
      let start := u64 (lba + data.lba)
      let count := len / P.VDISK_SECTOR_SIZE
      some (GRUB_EFI_SUCCESS,
        { w with memory := E.vfat_read start count buf w.memory,
                 calls := w.calls ++ [Call.vfat_read start count buf] })
  else if media_id ≠ data.media.media_id then some (GRUB_EFI_MEDIA_CHANGED, w)
  else if data.media.block_size = 0 then none
  else if len % data.media.block_size ≠ 0 then some (GRUB_EFI_BAD_BUFFER_SIZE, w)
  else if lba > data.media.last_block then some (GRUB_EFI_INVALID_PARAMETER, w)
  else
    let block_num := len / data.media.block_size
    if u64 (u64 (lba + block_num) + 2 ^ 64 - 1) > data.media.last_block then
      some (GRUB_EFI_INVALID_PARAMETER, w)
    else if data.mem then
      let src := uintn P (u64 (data.addr + u64 (lba * data.media.block_size)))
      some (GRUB_EFI_SUCCESS, { w with memory := grub_memcpy w.memory buf src len })
    else
      let progress := w.progress
      let w1 : World := { w with progress := some "0" }
      let offset := u64 (data.addr + u64 (lba * data.media.block_size))
      let r := E.file_read data.disk data.file buf len offset w1.memory
      let w2 : World :=
        { w1 with memory := r.1,
                  calls := w1.calls ++ [Call.file_read data.disk data.file buf len offset r.2] }
      let w3 : World :=
        match progress with
        | none => { w2 with progress := none }
        | some v => { w2 with progress := some v }
      some (GRUB_EFI_SUCCESS, w3)

/-- The function `blockio_write` of `vblock.c`, lines 88-130. -/
def blockio_write (P : Platform) (data : vdisk_t) (w : World)
    (media_id lba len buf : Nat) : Option (grub_efi_status_t × World) :=
  if buf = 0 then some (GRUB_EFI_INVALID_PARAMETER, w)
  else if len = 0 then some (GRUB_EFI_SUCCESS, w)
  else if data.type = disk_type.VFAT ∨ data.media.read_only = true then
    some (GRUB_EFI_WRITE_PROTECTED, w)
  else if media_id ≠ data.media.media_id then some (GRUB_EFI_MEDIA_CHANGED, w)
  else if data.media.block_size = 0 then none
  else if len % data.media.block_size ≠ 0 then some (GRUB_EFI_BAD_BUFFER_SIZE, w)
  else if lba > data.media.last_block then some (GRUB_EFI_INVALID_PARAMETER, w)
  else
    let block_num := len / data.media.block_size
    if u64 (u64 (lba + block_num) + 2 ^ 64 - 1) > data.media.last_block then
      some (GRUB_EFI_INVALID_PARAMETER, w)
    else if data.mem then
      let dst := uintn P (u64 (data.addr + u64 (lba * data.media.block_size)))
      some (GRUB_EFI_SUCCESS, { w with memory := grub_memcpy w.memory dst buf len })
    else
      some (GRUB_EFI_WRITE_PROTECTED, w)

/-- The tests of lines 55-67 (and 109-121) all let the request through: the media id
matches, the length is a multiple of the (non-zero) block size, `lba` is at most
`last_block`, and so is the 64-bit value of `lba + block_num - 1`. -/
def passes_validation (data : vdisk_t) (media_id lba len : Nat) : Bool :=
  decide (media_id = data.media.media_id) && decide (data.media.block_size ≠ 0) &&
  decide (len % data.media.block_size = 0) && decide (lba ≤ data.media.last_block) &&
  decide (u64 (u64 (lba + len / data.media.block_size) + 2 ^ 64 - 1)
            ≤ data.media.last_block)

/-! ## `biosboot.c`: the interrupt wrapper -/

/-- The parameter block `struct bootapp_callback_params` (declared in a header that is not
among the translated files).  The fields read by `call_interrupt_wrapper` are named:
`vector.interrupt`, `ax`, `es`, `di`; the remaining registers are kept in `regs`. -/
structure bootapp_callback_params where
  vector_interrupt : Nat
  ax : Nat
  es : Nat
  di : Nat
  regs : List Nat
  deriving DecidableEq, Repr

/-- What `call_interrupt_wrapper` uses from the rest of the repository: the address
computation `REAL_PTR ( segment, offset )`, the command-line flag `cmdline_gui`, the
INT 13 emulator and the real interrupt caller.  The two callees receive the parameter
block and memory and return both as they leave them. -/
structure BiosCollaborators where
  REAL_PTR : Nat → Nat → Nat
  cmdline_gui : Bool
  emulate_int13 : bootapp_callback_params → Mem → bootapp_callback_params × Mem
  call_interrupt : bootapp_callback_params → Mem → bootapp_callback_params × Mem

/-- A recorded call made by the wrapper, with the parameter block it was given. -/
inductive BiosCall
  | emulate_int13 (params : bootapp_callback_params)
  | call_interrupt (params : bootapp_callback_params)
  deriving DecidableEq, Repr

/-- The little-endian 16-bit word at address `a`. -/
def read16 (m : Mem) (a : Nat) : Nat := (m a).val + 256 * (m (a + 1)).val

/-- Memory after storing the low 16 bits of `v` at address `a`, little-endian. -/
def write16 (m : Mem) (a v : Nat) : Mem :=
  fun x =>
    if x = a then ⟨v % 256, Nat.mod_lt _ (by decide)⟩
    else if x = a + 1 then ⟨v / 256 % 256, Nat.mod_lt _ (by decide)⟩
    else m x

/-- The function `call_interrupt_wrapper` of `biosboot.c`, lines 79-102.  The result is the
parameter block and memory on return, and the calls made.  `~0x0001` is the 32-bit
`int` value `0xFFFFFFFE`; the compound assignment stores the low 16 bits. -/
def call_interrupt_wrapper (B : BiosCollaborators) (params : bootapp_callback_params)
    (m : Mem) : bootapp_callback_params × Mem × List BiosCall :=
  if params.vector_interrupt = 0x13 then
    let r := B.emulate_int13 params m
    (r.1, r.2, [BiosCall.emulate_int13 params])
  else if params.vector_interrupt = 0x10 ∧ params.ax = 0x4f01 ∧ B.cmdline_gui = false then
    let attributes := B.REAL_PTR params.es params.di
    let r := B.call_interrupt params m
    (r.1, write16 r.2 attributes ((read16 r.2 attributes &&& 0xFFFFFFFE) % 2 ^ 16),
      [BiosCall.call_interrupt params])
  else
    let r := B.call_interrupt params m
    (r.1, r.2, [BiosCall.call_interrupt params])

/-! ## `biosboot.c`: the handoff driver -/

/-- Index of the emulator-image region (the `enum` of lines 67-72). -/
def WIMBOOT_REGION : Nat := 0

/-- Index of the loaded-executable region. -/
def PE_REGION : Nat := 1

/-- Index of the auxiliary-payload region. -/
def INITRD_REGION : Nat := 2

/-- Number of memory regions. -/
def NUM_REGIONS : Nat := 3

/-- The two fields of `struct bootapp_memory_region` written by `wimboot_boot`. -/
structure bootapp_memory_region where
  start_page : Nat
  num_pages : Nat
  deriving DecidableEq, Repr

/-- The fields of the static descriptor set `bootapps` (lines 116-182) that `wimboot_boot`
completes: `bootapp.pe_base`, `bootapp.pe_len` and the array `regions[NUM_REGIONS]`.
The remaining fields are constants fixed by the initialiser. -/
structure bootapps_t where
  pe_base : Nat
  pe_len : Nat
  regions : List bootapp_memory_region
  deriving DecidableEq, Repr

/-- The fields of `struct vdisk_file` read by `wimboot_boot`: the function pointer `read`
(as an address), the pointer `opaque` (here `resident`, the source name being a reserved
word) and `len`. -/
structure vdisk_file where
  read : Nat
  resident : Nat
  len : Nat
  deriving DecidableEq, Repr

/-- The result `struct loaded_pe` of `load_pe`. -/
structure loaded_pe where
  base : Nat
  len : Nat
  entry : Nat
  deriving DecidableEq, Repr

/-- What `wimboot_boot` uses from the rest of the build: the width in bits of `size_t`
and of pointers, the constant `PAGE_SIZE`, the linker symbols `_start` and `_end`, the
globals `initrd`, `initrd_len` and `cmdline_pause`, the address of the function
`read_file`, the effect on memory of calling a file's `read` function
(`file_read f data offset len m`), and `load_pe raw_pe len m`, which returns the memory
it leaves and the loaded image, or no image when it reports an error. -/
structure BootEnv where
  size_bits : Nat
  PAGE_SIZE : Nat
  _start : Nat
  _end : Nat
  initrd : Nat
  initrd_len : Nat
  cmdline_pause : Bool
  read_file : Nat
  file_read : vdisk_file → Nat → Nat → Nat → Mem → Mem
  load_pe : Nat → Nat → Mem → Mem × Option loaded_pe

/-- A recorded call made by `wimboot_boot`, with the values of its arguments. -/
inductive BootCall
  | read (file : vdisk_file) (data offset len : Nat)
  | load_pe (data len : Nat)
  | pause
  | entry (address : Nat)
  deriving DecidableEq, Repr

/-- The two calls of `die` that precede the jump. -/
inductive Fatal
  | no_bootmgr
  | could_not_load
  deriving DecidableEq, Repr

/-- How `wimboot_boot` ends: in `die`, or at the jump `pe.entry ( &bootapps.bootapp )`
with the completed descriptor set and the memory at that moment.  Both carry the calls
made so far.  What follows the jump is not described. -/
inductive BootOutcome
  | fatal (reason : Fatal) (calls : List BootCall)
  | entered (bootapps : bootapps_t) (memory : Mem) (calls : List BootCall)

/-- Reduction to a `size_t` (and to a pointer value). -/
def size_t (B : BootEnv) (n : Nat) : Nat := n % 2 ^ B.size_bits

/-- Modelled from the spec: the helper `page_start`, which is declared in a header that is
not among the translated files; `start_page = floor(address / PAGE_SIZE)`. -/
def page_start (B : BootEnv) (address : Nat) : Nat := address / B.PAGE_SIZE

/-- Modelled from the spec: the helper `page_len`, which is declared in a header that is
not among the translated files;
`num_pages = ceil((end_address - start_page * PAGE_SIZE) / PAGE_SIZE)`. -/
def page_len (B : BootEnv) (start stop : Nat) : Nat :=
  (stop - page_start B start * B.PAGE_SIZE + B.PAGE_SIZE - 1) / B.PAGE_SIZE

/-- The value of `( bootmgr->len + PAGE_SIZE - 1 ) & ~( PAGE_SIZE - 1 )` in `size_t`
arithmetic (lines 213-214); `~( PAGE_SIZE - 1 )` is the complement of `PAGE_SIZE - 1` in
all bits of a `size_t`. -/
def padded_len (B : BootEnv) (len : Nat) : Nat :=
  size_t B (size_t B (len + B.PAGE_SIZE) + 2 ^ B.size_bits - 1) &&&
    (2 ^ B.size_bits - 1 - size_t B (B.PAGE_SIZE + 2 ^ B.size_bits - 1))

/-- Lines 210-217 of `wimboot_boot`: the address `raw_pe` of the executable, the memory
after it was read there (when it was not resident), and the calls made. -/
def read_bootmgr (B : BootEnv) (f : vdisk_file) (m : Mem) : Nat × Mem × List BootCall :=
  if f.read = B.read_file then (f.resident, m, [])
  else
    let raw_pe := size_t B (B.initrd + 2 ^ B.size_bits - padded_len B f.len)
    (raw_pe, B.file_read f raw_pe 0 f.len m, [BootCall.read f raw_pe 0 f.len])

/-- The function `wimboot_boot` of `biosboot.c`, lines 200-241, up to the jump into the
loaded image.  `bootmgr` is the static pointer of line 61 (`none` when null), `bootapps`
the descriptor set before the call. -/
def wimboot_boot (B : BootEnv) (bootmgr : Option vdisk_file) (bootapps : bootapps_t)
    (m : Mem) : BootOutcome :=
  match bootmgr with
  | none => BootOutcome.fatal Fatal.no_bootmgr []
  | some f =>
    let loaded := read_bootmgr B f m
    let raw_pe := loaded.1
    let r := B.load_pe raw_pe f.len loaded.2.1
    let calls := loaded.2.2 ++ [BootCall.load_pe raw_pe f.len]
    match r.2 with
    | none => BootOutcome.fatal Fatal.could_not_load calls
    | some pe =>
      let regions0 := bootapps.regions.set WIMBOOT_REGION
        { start_page := page_start B B._start, num_pages := page_len B B._start B._end }
      let regions1 := regions0.set PE_REGION
        { start_page := page_start B pe.base,
          num_pages := page_len B pe.base (size_t B (pe.base + pe.len)) }
      let regions2 := regions1.set INITRD_REGION
        { start_page := page_start B B.initrd,
          num_pages := page_len B B.initrd (size_t B (B.initrd + B.initrd_len)) }
      let done : bootapps_t := { pe_base := pe.base, pe_len := pe.len, regions := regions2 }
      let calls1 := if B.cmdline_pause = true then calls ++ [BootCall.pause] else calls
      BootOutcome.entered done r.1 (calls1 ++ [BootCall.entry pe.entry])

/-- The calls recorded in an outcome. -/
def outcome_calls : BootOutcome → List BootCall
  | BootOutcome.fatal _ calls => calls
  | BootOutcome.entered _ _ calls => calls

/-- The descriptor set handed to the loaded image, when the jump is reached. -/
def outcome_bootapps : BootOutcome → Option bootapps_t
  | BootOutcome.fatal _ _ => none
  | BootOutcome.entered d _ _ => some d

/-! ## Concrete inputs used by the witnesses -/

/-- A 64-bit build with 512-byte sectors. -/
def platform64 : Platform := { uintn_bits := 64, VDISK_SECTOR_SIZE := 512 }

/-- Memory whose byte at address `a` is `a mod 256`. -/
def patternMem : Mem := fun a => ⟨a % 256, Nat.mod_lt a (by decide)⟩

/-- Collaborators that leave memory alone; the backing-store read succeeds. -/
def idleCollaborators : Collaborators :=
  { vfat_read := fun _ _ _ m => m, file_read := fun _ _ _ _ _ m => (m, true) }

/-- Collaborators whose backing-store read fails. -/
def failingCollaborators : Collaborators :=
  { vfat_read := fun _ _ _ m => m, file_read := fun _ _ _ _ _ m => (m, false) }

/-- The disk of the scenario of the specification: 100 blocks of 512 bytes, media id 1,
memory-backed at base address `0x100000`, writable. -/
def scenarioDisk : vdisk_t :=
  { type := disk_type.OTHER, mem := true, disk := false, file := 0, addr := 0x100000,
    lba := 0,
    media := { media_id := 1, read_only := false, block_size := 512, last_block := 99 } }

/-- The initial state of the witnesses. -/
def scenarioWorld : World := { memory := patternMem, progress := none, calls := [] }

/-- The scenario disk made read-only. -/
def readOnlyDisk : vdisk_t :=
  { scenarioDisk with media := { scenarioDisk.media with read_only := true } }

/-- The scenario disk made file-backed: `addr` is then the byte offset of block 0 in the
backing file with handle 7. -/
def fileDisk : vdisk_t := { scenarioDisk with mem := false, file := 7, addr := 4096 }

/-- Real-mode addressing `segment * 16 + offset`. -/
def realModePtr (segment offset : Nat) : Nat := segment * 16 + offset

/-- A real handler that answers a VESA mode query by storing the attributes word `0x009B`
at `ES:DI` and setting `AX` to `0x004F`; an INT 13 emulator that only sets `AX` to 0. -/
def vesaBios (gui : Bool) : BiosCollaborators :=
  { REAL_PTR := realModePtr,
    cmdline_gui := gui,
    emulate_int13 := fun p m => ({ p with ax := 0 }, m),
    call_interrupt := fun p m =>
      ({ p with ax := 0x004f }, write16 m (realModePtr p.es p.di) 0x009B) }

/-- A VESA mode-information query (`INT 10h`, `AX = 4F01h`) with `ES:DI = 2000:0100`. -/
def vesaQuery : bootapp_callback_params :=
  { vector_interrupt := 0x10, ax := 0x4f01, es := 0x2000, di := 0x0100, regs := [] }

/-- The descriptor set before `wimboot_boot` runs: the variable fields are zero. -/
def bootapps_initial : bootapps_t :=
  { pe_base := 0, pe_len := 0, regions := List.replicate NUM_REGIONS ⟨0, 0⟩ }

/-- A 32-bit build with 4096-byte pages: the emulator occupies `[0x7000, 0x9F00)`, the
payload 3000000 bytes at `initrd`; `load_pe` accepts every image and loads 70000 bytes at
`0x400000`; reading a file leaves memory alone. -/
def bootEnv32 (initrd : Nat) : BootEnv :=
  { size_bits := 32, PAGE_SIZE := 4096, _start := 0x7000, _end := 0x9F00,
    initrd := initrd, initrd_len := 3000000, cmdline_pause := false, read_file := 0x8000,
    file_read := fun _ _ _ _ m => m,
    load_pe := fun _ _ m => (m, some { base := 0x400000, len := 70000, entry := 0x401000 }) }

/-- A 70000-byte `bootmgr.exe` that is not resident: its `read` function is not
`read_file`. -/
def bootmgrFile : vdisk_file := { read := 0x8100, resident := 0, len := 70000 }

/-- A 70000-byte `bootmgr.exe` already resident at `0x300000`. -/
def residentFile : vdisk_file := { read := 0x8000, resident := 0x300000, len := 70000 }

/-- The status of a result, when there is one. -/
def result_status (r : Option (grub_efi_status_t × World)) : Option grub_efi_status_t :=
  r.map fun x => x.1

/-- The collaborator calls recorded in a result, when there is one. -/
def result_calls (r : Option (grub_efi_status_t × World)) : Option (List Call) :=
  r.map fun x => x.2.calls

/-! ## Arithmetic helpers -/

/-- The 64-bit computation `x - 1` agrees with the exact value for `1 ≤ x ≤ 2 ^ 64`. -/
theorem u64_pred_exact (x : Nat) (h1 : 1 ≤ x) (h2 : x ≤ 2 ^ 64) :
    u64 (u64 x + 2 ^ 64 - 1) = x - 1 := by
  unfold u64
  omega

/-- A positive multiple of the block size holds at least one block. -/
theorem block_num_pos (len bs : Nat) (hlen : 0 < len) (hal : len % bs = 0) :
    1 ≤ len / bs := by
  rcases Nat.eq_zero_or_pos (len / bs) with h | h
  · have := Nat.div_add_mod len bs
    rw [h, hal] at this
    simp at this
    omega
  · exact h

/-- Under the descriptor invariant the byte address of a valid block is computed
without wrap-around. -/
theorem block_addr_exact (P : Platform) (addr lba bs last : Nat)
    (hW : P.uintn_bits ≤ 64) (hbs : 0 < bs)
    (hinv : addr + (last + 1) * bs ≤ 2 ^ P.uintn_bits) (hlba : lba ≤ last) :
    uintn P (u64 (addr + u64 (lba * bs))) = addr + lba * bs := by
  have h64 : 2 ^ P.uintn_bits ≤ 2 ^ 64 := Nat.pow_le_pow_right (by decide) hW
  have h1 : (lba + 1) * bs ≤ (last + 1) * bs := Nat.mul_le_mul_right bs (by omega)
  have h2 : (lba + 1) * bs = lba * bs + bs := by ring
  have h3 : addr + lba * bs < 2 ^ P.uintn_bits := by omega
  have h4 : lba * bs < 2 ^ 64 := by omega
  have h5 : addr + lba * bs < 2 ^ 64 := by omega
  unfold uintn u64
  rw [Nat.mod_eq_of_lt h4, Nat.mod_eq_of_lt h5, Nat.mod_eq_of_lt h3]

/-- The validation tests pass for a request whose exact block range ends at or before
`last_block`. -/
theorem range_check_passes (lba bn last : Nat) (hbn : 1 ≤ bn) (h : lba + bn - 1 ≤ last) :
    ¬ lba > last ∧ ¬ u64 (u64 (lba + bn) + 2 ^ 64 - 1) > last := by
  refine ⟨by omega, ?_⟩
  by_cases hl : last < 2 ^ 64
  · rw [u64_pred_exact (lba + bn) (by omega) (by omega)]
    omega
  · have : u64 (u64 (lba + bn) + 2 ^ 64 - 1) < 2 ^ 64 := by
      unfold u64
      exact Nat.mod_lt _ (by decide)
    omega

/-! ## Validation order of `blockio_read` -/

/-- C1: on a disk whose type is not VFAT and whose block size is positive, with a present
buffer and a non-zero length, `blockio_read` checks media identity first, then length
alignment, then the start LBA: a differing `media_id` gives MEDIA_CHANGED whatever `lba`
and `len` are; otherwise a length that is not a multiple of the block size gives
BAD_BUFFER_SIZE whatever `lba` is; otherwise `lba > last_block` gives INVALID_PARAMETER.
In all three cases the state is returned unchanged. -/
theorem blockio_read_check_order (P : Platform) (E : Collaborators) (data : vdisk_t)
    (w : World) (media_id lba len buf : Nat)
    (htype : data.type ≠ disk_type.VFAT) (hbs : 0 < data.media.block_size)
    (hbuf : buf ≠ 0) (hlen : len ≠ 0) :
    (media_id ≠ data.media.media_id →
      blockio_read P E data w media_id lba len buf = some (GRUB_EFI_MEDIA_CHANGED, w)) ∧
    (media_id = data.media.media_id → len % data.media.block_size ≠ 0 →
      blockio_read P E data w media_id lba len buf = some (GRUB_EFI_BAD_BUFFER_SIZE, w)) ∧
    (media_id = data.media.media_id → len % data.media.block_size = 0 →
      lba > data.media.last_block →
      blockio_read P E data w media_id lba len buf
        = some (GRUB_EFI_INVALID_PARAMETER, w)) := by
  have hbs0 : data.media.block_size ≠ 0 := Nat.pos_iff_ne_zero.mp hbs
  refine ⟨?_, ?_, ?_⟩
  · intro hid
    simp [blockio_read, hbuf, hlen, htype, hid]
  · intro hid hal
    simp [blockio_read, hbuf, hlen, htype, hid, hbs0, hal]
  · intro hid hal hlba
    simp [blockio_read, hbuf, hlen, htype, hid, hbs0, hal, hlba]

/-- Witness for C1 on the scenario disk: a stale media id is reported even though `lba`
and `len` are valid. -/
theorem blockio_read_check_order_witness :
    blockio_read platform64 idleCollaborators scenarioDisk scenarioWorld 2 50 512 0x200000
      = some (GRUB_EFI_MEDIA_CHANGED, scenarioWorld) :=
  (blockio_read_check_order platform64 idleCollaborators scenarioDisk scenarioWorld
    2 50 512 0x200000 (by decide) (by decide) (by decide) (by decide)).1 (by decide)

/-! ## Memory-backed read -/

/-- C2: on a memory-backed disk satisfying the descriptor invariant (the image
`[addr, addr + (last_block + 1) * block_size)` lies in the address space), a request with
present buffer, matching media id, length a positive multiple of the block size and
`lba + len / block_size - 1 ≤ last_block` succeeds; afterwards byte `i` of the buffer is
the byte that was at `addr + lba * block_size + i`; no byte outside the destination
buffer is written, so an image that does not overlap the buffer is unchanged; no
collaborator is called. -/
theorem blockio_read_memory_backed (P : Platform) (E : Collaborators) (data : vdisk_t)
    (w : World) (media_id lba len buf : Nat)
    (htype : data.type ≠ disk_type.VFAT) (hmem : data.mem = true)
    (hbs : 0 < data.media.block_size) (hW : P.uintn_bits ≤ 64)
    (hinv : data.addr + (data.media.last_block + 1) * data.media.block_size
              ≤ 2 ^ P.uintn_bits)
    (hbuf : buf ≠ 0) (hid : media_id = data.media.media_id)
    (hlen : 0 < len) (hal : len % data.media.block_size = 0)
    (hrange : lba + len / data.media.block_size - 1 ≤ data.media.last_block) :
    ∃ w', blockio_read P E data w media_id lba len buf = some (GRUB_EFI_SUCCESS, w') ∧
      (∀ i, i < len →
        w'.memory (buf + i) = w.memory (data.addr + lba * data.media.block_size + i)) ∧
      (∀ a, (a < buf ∨ buf + len ≤ a) → w'.memory a = w.memory a) ∧
      ((buf + len ≤ data.addr ∨
          data.addr + (data.media.last_block + 1) * data.media.block_size ≤ buf) →
        ∀ a, data.addr ≤ a →
          a < data.addr + (data.media.last_block + 1) * data.media.block_size →
          w'.memory a = w.memory a) ∧
      w'.calls = w.calls ∧ w'.progress = w.progress := by
  have hbs0 : data.media.block_size ≠ 0 := Nat.pos_iff_ne_zero.mp hbs
  have hlen0 : len ≠ 0 := Nat.pos_iff_ne_zero.mp hlen
  have hbn := block_num_pos len data.media.block_size hlen hal
  have hlba : lba ≤ data.media.last_block := by omega
  have h64 : 2 ^ P.uintn_bits ≤ 2 ^ 64 := Nat.pow_le_pow_right (by decide) hW
  have hlast : data.media.last_block + 1 ≤ 2 ^ 64 := by
    have := Nat.le_mul_of_pos_right (data.media.last_block + 1) hbs
    omega
  have hchk := u64_pred_exact (lba + len / data.media.block_size) (by omega) (by omega)
  have hsrc := block_addr_exact P data.addr lba data.media.block_size
    data.media.last_block hW hbs hinv hlba
  let src := data.addr + lba * data.media.block_size
  refine ⟨{ w with memory := grub_memcpy w.memory buf src len }, ?_, ?_, ?_, ?_, rfl, rfl⟩
  · simp only [blockio_read, hbuf, hlen0, htype, hid, hbs0, hal, hchk, hsrc, hmem]
    simp [Nat.not_lt.mpr hlba]
    omega
  · intro i hi
    simp [grub_memcpy, hi]
  · intro a ha
    have : ¬ (buf ≤ a ∧ a < buf + len) := by omega
    simp [grub_memcpy, this]
  · intro hsep a ha1 ha2
    have : ¬ (buf ≤ a ∧ a < buf + len) := by omega
    simp [grub_memcpy, this]

/-- Witness for C2, the scenario of the specification: block size 512, last block 99,
`lba = 50`, `len = 512` copies the 512 bytes at `B + 25600` (here `B = 0x100000`). -/
theorem blockio_read_memory_backed_witness :
    ∃ w', blockio_read platform64 idleCollaborators scenarioDisk scenarioWorld
            1 50 512 0x200000 = some (GRUB_EFI_SUCCESS, w') ∧
      (∀ i, i < 512 → w'.memory (0x200000 + i) = patternMem (0x100000 + 25600 + i)) ∧
      (∀ a, 0x100000 ≤ a → a < 0x100000 + 51200 → w'.memory a = patternMem a) := by
  obtain ⟨w', h1, h2, _, h4, _, _⟩ :=
    blockio_read_memory_backed platform64 idleCollaborators scenarioDisk scenarioWorld
      1 50 512 0x200000 (by decide) rfl (by decide) (by decide) (by decide) (by decide)
      rfl (by decide) (by decide) (by decide)
  exact ⟨w', h1, h2, h4 (Or.inr (by decide))⟩

/-! ## The range check -/

/-- Counterexample to C4 as stated: on the read-only scenario disk `blockio_write` with
an absent buffer returns INVALID_PARAMETER, and with a present buffer and length 0 it
returns SUCCESS; neither is WRITE_PROTECTED. -/
theorem blockio_write_protected_counterexample :
    readOnlyDisk.media.read_only = true ∧
    result_status (blockio_write platform64 readOnlyDisk scenarioWorld 1 50 512 0)
      = some GRUB_EFI_INVALID_PARAMETER ∧
    result_status (blockio_write platform64 readOnlyDisk scenarioWorld 1 50 0 0x200000)
      = some GRUB_EFI_SUCCESS := by
  refine ⟨by decide, by decide, by decide⟩

/-- C4 (amended): on a disk that is read-only or of type VFAT, for every media id, LBA,
length and buffer, `blockio_write` leaves the state unchanged and returns
WRITE_PROTECTED when the buffer is present and the length is non-zero; before that it
returns INVALID_PARAMETER for an absent buffer and SUCCESS for a present buffer with
length 0. -/
theorem blockio_write_protected (P : Platform) (data : vdisk_t) (w : World)
    (media_id lba len buf : Nat)
    (hprot : data.media.read_only = true ∨ data.type = disk_type.VFAT) :
    blockio_write P data w media_id lba len buf =
      some (if buf = 0 then GRUB_EFI_INVALID_PARAMETER
            else if len = 0 then GRUB_EFI_SUCCESS
            else GRUB_EFI_WRITE_PROTECTED, w) := by
  unfold blockio_write
  by_cases hb : buf = 0
  · simp [hb]
  · by_cases hl : len = 0
    · simp [hb, hl]
    · rcases hprot with h | h
      · simp [hb, hl, h]
      · simp [hb, hl, h]

/-- Witness for C4 (amended): a one-block write to the read-only scenario disk. -/
theorem blockio_write_protected_witness :
    blockio_write platform64 readOnlyDisk scenarioWorld 1 50 512 0x200000
      = some (GRUB_EFI_WRITE_PROTECTED, scenarioWorld) :=
  blockio_write_protected platform64 readOnlyDisk scenarioWorld 1 50 512 0x200000
    (Or.inl rfl)

/-- C5: for every disk, media id, LBA and length, `blockio_read` and `blockio_write`
with an absent buffer return INVALID_PARAMETER, and with a present buffer and length 0
they return SUCCESS; in both cases the state is returned as it was: memory (the buffer
included) is not written, and the trace of collaborator calls gains no entry. -/
theorem blockio_null_buffer_zero_length (P : Platform) (E : Collaborators)
    (data : vdisk_t) (w : World) (media_id lba len buf : Nat) :
    blockio_read P E data w media_id lba len 0 = some (GRUB_EFI_INVALID_PARAMETER, w) ∧
    blockio_write P data w media_id lba len 0 = some (GRUB_EFI_INVALID_PARAMETER, w) ∧
    (buf ≠ 0 →
      blockio_read P E data w media_id lba 0 buf = some (GRUB_EFI_SUCCESS, w) ∧
      blockio_write P data w media_id lba 0 buf = some (GRUB_EFI_SUCCESS, w)) := by
  refine ⟨by simp [blockio_read], by simp [blockio_write], ?_⟩
  intro hb
  exact ⟨by simp [blockio_read, hb], by simp [blockio_write, hb]⟩

/-- Witness for C5: a zero-length read and write with a present buffer on the read-only
scenario disk. -/
theorem blockio_null_buffer_zero_length_witness :
    blockio_read platform64 idleCollaborators readOnlyDisk scenarioWorld 7 1000 0 0x200000
      = some (GRUB_EFI_SUCCESS, scenarioWorld) ∧
    blockio_write platform64 readOnlyDisk scenarioWorld 7 1000 0 0x200000
      = some (GRUB_EFI_SUCCESS, scenarioWorld) :=
  (blockio_null_buffer_zero_length platform64 idleCollaborators readOnlyDisk scenarioWorld
    7 1000 0 0x200000).2.2 (by decide)

/-! ## Write against read -/

/-- C6: on a disk that is neither read-only nor of type VFAT, for all arguments:
on a memory-backed disk `blockio_write` returns the status `blockio_read` returns;
on a file-backed disk it does too, except that a request with present buffer and
non-zero length that passes every validation test gets WRITE_PROTECTED from write and
SUCCESS from read; and a write to a file-backed disk never changes the state. -/
theorem blockio_write_same_validation (P : Platform) (E : Collaborators) (data : vdisk_t)
    (w : World) (media_id lba len buf : Nat)
    (htype : data.type ≠ disk_type.VFAT) (hro : data.media.read_only = false) :
    (data.mem = true →
      result_status (blockio_write P data w media_id lba len buf)
        = result_status (blockio_read P E data w media_id lba len buf)) ∧
    (data.mem = false →
      (if buf ≠ 0 ∧ len ≠ 0 ∧ passes_validation data media_id lba len = true then
        result_status (blockio_read P E data w media_id lba len buf)
          = some GRUB_EFI_SUCCESS ∧
        blockio_write P data w media_id lba len buf = some (GRUB_EFI_WRITE_PROTECTED, w)
      else
        result_status (blockio_write P data w media_id lba len buf)
          = result_status (blockio_read P E data w media_id lba len buf)) ∧
      (∀ s w', blockio_write P data w media_id lba len buf = some (s, w') → w' = w)) := by
  simp only [blockio_read, blockio_write, result_status, passes_validation]
  generalize u64 (u64 (lba + len / data.media.block_size) + 2 ^ 64 - 1) = c
  by_cases hb : buf = 0
  · simp [hb]
  by_cases hl : len = 0
  · simp [hb, hl]
  by_cases hid : media_id = data.media.media_id
  swap
  · simp [hb, hl, htype, hro, hid]
  by_cases hz : data.media.block_size = 0
  · simp [hb, hl, htype, hro, hid, hz]
  by_cases hal : len % data.media.block_size = 0
  swap
  · simp [hb, hl, htype, hro, hid, hz, hal]
  by_cases hlba : lba > data.media.last_block
  · have hlba' : ¬ lba ≤ data.media.last_block := by omega
    simp [hb, hl, htype, hro, hid, hz, hal, hlba, hlba']
  have hlba' : lba ≤ data.media.last_block := by omega
  by_cases hchk : c > data.media.last_block
  · have hchk' : ¬ c ≤ data.media.last_block := by omega
    simp [hb, hl, htype, hro, hid, hz, hal, hlba, hlba', hchk, hchk']
  have hchk' : c ≤ data.media.last_block := by omega
  refine ⟨?_, ?_⟩
  · intro hmem
    simp [hb, hl, htype, hro, hid, hz, hal, hlba, hlba', hchk, hchk', hmem]
  · intro hmem
    simp [hb, hl, htype, hro, hid, hz, hal, hlba, hlba', hchk, hchk', hmem]

/-- Witness for C6: a valid one-block request on the file-backed scenario disk is refused
by write with WRITE_PROTECTED while read reports SUCCESS. -/
theorem blockio_write_same_validation_witness :
    result_status (blockio_read platform64 idleCollaborators fileDisk scenarioWorld
      1 50 512 0x200000) = some GRUB_EFI_SUCCESS ∧
    blockio_write platform64 fileDisk scenarioWorld 1 50 512 0x200000
      = some (GRUB_EFI_WRITE_PROTECTED, scenarioWorld) := by
  have h := ((blockio_write_same_validation platform64 idleCollaborators fileDisk
    scenarioWorld 1 50 512 0x200000 (by decide) rfl).2 rfl).1
  have hc : (0x200000 : Nat) ≠ 0 ∧ (512 : Nat) ≠ 0 ∧
      passes_validation fileDisk 1 50 512 = true := by decide
  rw [if_pos hc] at h
  exact h

/-! ## Round trip on a memory-backed disk -/

/-- C7: on a writable memory-backed disk with positive block size, for a request with
present buffer, matching media id, `len % block_size = 0` and
`lba + len / block_size - 1 ≤ last_block`, a `blockio_read` into the buffer followed by
a `blockio_write` of the buffer at the same `lba` both return SUCCESS, and afterwards
every byte of memory outside the buffer equals its original content; so the whole image
`[addr, addr + (last_block + 1) * block_size)`, when the buffer does not overlap it, is
byte for byte what it was. -/
theorem blockio_read_write_round_trip (P : Platform) (E : Collaborators) (data : vdisk_t)
    (w : World) (media_id lba len buf : Nat)
    (htype : data.type ≠ disk_type.VFAT) (hmem : data.mem = true)
    (hro : data.media.read_only = false) (hbs : 0 < data.media.block_size)
    (hbuf : buf ≠ 0) (hid : media_id = data.media.media_id)
    (hal : len % data.media.block_size = 0)
    (hrange : lba + len / data.media.block_size - 1 ≤ data.media.last_block) :
    ∃ w1 w2,
      blockio_read P E data w media_id lba len buf = some (GRUB_EFI_SUCCESS, w1) ∧
      blockio_write P data w1 media_id lba len buf = some (GRUB_EFI_SUCCESS, w2) ∧
      (∀ a, (a < buf ∨ buf + len ≤ a) → w2.memory a = w.memory a) ∧
      ((buf + len ≤ data.addr ∨
          data.addr + (data.media.last_block + 1) * data.media.block_size ≤ buf) →
        ∀ a, data.addr ≤ a →
          a < data.addr + (data.media.last_block + 1) * data.media.block_size →
          w2.memory a = w.memory a) := by
  have hbs0 : data.media.block_size ≠ 0 := Nat.pos_iff_ne_zero.mp hbs
  by_cases hlen0 : len = 0
  · refine ⟨w, w, by simp [blockio_read, hbuf, hlen0], by simp [blockio_write, hbuf, hlen0],
      fun _ _ => rfl, fun _ _ _ _ => rfl⟩
  have hlen : 0 < len := Nat.pos_of_ne_zero hlen0
  have hbn := block_num_pos len data.media.block_size hlen hal
  obtain ⟨hc1, hc2⟩ := range_check_passes lba (len / data.media.block_size)
    data.media.last_block hbn hrange
  let s := uintn P (u64 (data.addr + u64 (lba * data.media.block_size)))
  let w1 : World := { w with memory := grub_memcpy w.memory buf s len }
  let w2 : World := { w1 with memory := grub_memcpy w1.memory s buf len }
  have hframe : ∀ a, (a < buf ∨ buf + len ≤ a) → w2.memory a = w.memory a := by
    intro a ha
    have hnb : ¬ (buf ≤ a ∧ a < buf + len) := by omega
    show grub_memcpy (grub_memcpy w.memory buf s len) s buf len a = w.memory a
    by_cases hs : s ≤ a ∧ a < s + len
    · have hin : buf ≤ buf + (a - s) ∧ buf + (a - s) < buf + len := by omega
      have he : s + (buf + (a - s) - buf) = a := by omega
      simp only [grub_memcpy, hs, hin, and_self, if_true, he]
    · simp only [grub_memcpy, hs, hnb, if_false]
  refine ⟨w1, w2, ?_, ?_, hframe, ?_⟩
  · simp only [blockio_read, hbuf, hlen0, htype, hid, hbs0, hal, hc1, hc2, hmem]
    simp [w1, s]
  · simp only [blockio_write, hbuf, hlen0, htype, hro, hid, hbs0, hal, hc1, hc2, hmem]
    simp [w2, w1, s]
  · intro hsep a ha1 ha2
    exact hframe a (by omega)

/-- Witness for C7 on the scenario disk: reading block 50 into a buffer at `0x200000` and
writing it back leaves the 51200-byte image at `0x100000` as it was. -/
theorem blockio_read_write_round_trip_witness :
    ∃ w1 w2,
      blockio_read platform64 idleCollaborators scenarioDisk scenarioWorld
        1 50 512 0x200000 = some (GRUB_EFI_SUCCESS, w1) ∧
      blockio_write platform64 scenarioDisk w1 1 50 512 0x200000
        = some (GRUB_EFI_SUCCESS, w2) ∧
      (∀ a, 0x100000 ≤ a → a < 0x100000 + 51200 → w2.memory a = patternMem a) := by
  obtain ⟨w1, w2, h1, h2, _, h4⟩ :=
    blockio_read_write_round_trip platform64 idleCollaborators scenarioDisk scenarioWorld
      1 50 512 0x200000 (by decide) rfl rfl (by decide) (by decide) rfl (by decide)
      (by decide)
  exact ⟨w1, w2, h1, h2, h4 (Or.inr (by decide))⟩

/-! ## Synthesized-filesystem read -/

/-- Counterexample to C9 as stated: on the file-backed scenario disk, with a backing-store
read that fails, the valid one-block request at `lba = 50` still returns SUCCESS; the
trace shows the single failed `file_read`. -/
theorem blockio_read_file_failure_counterexample :
    passes_validation fileDisk 1 50 512 = true ∧
    result_calls (blockio_read platform64 failingCollaborators fileDisk scenarioWorld
      1 50 512 0x200000)
      = some [Call.file_read false 7 0x200000 512 (4096 + 50 * 512) false] ∧
    result_status (blockio_read platform64 failingCollaborators fileDisk scenarioWorld
      1 50 512 0x200000) = some GRUB_EFI_SUCCESS := by
  refine ⟨by decide, by decide, by decide⟩

/-- C9 (amended): on a file-backed disk (type not VFAT, `mem` false), for a request with
present buffer and non-zero length that passes validation, `blockio_read` calls the
backing-store accessor exactly once, at byte offset `addr + lba * block_size` (64-bit
arithmetic), and returns SUCCESS whether that read succeeded or failed: the outcome of
the read appears only in the trace, the memory is what the accessor left, and the
progress-indicator variable is restored. -/
theorem blockio_read_file_backed (P : Platform) (E : Collaborators) (data : vdisk_t)
    (w : World) (media_id lba len buf : Nat)
    (htype : data.type ≠ disk_type.VFAT) (hmem : data.mem = false)
    (hbuf : buf ≠ 0) (hlen : len ≠ 0)
    (hpass : passes_validation data media_id lba len = true) :
    ∃ w', blockio_read P E data w media_id lba len buf = some (GRUB_EFI_SUCCESS, w') ∧
      w'.calls = w.calls ++
        [Call.file_read data.disk data.file buf len
          (u64 (data.addr + u64 (lba * data.media.block_size)))
          (E.file_read data.disk data.file buf len
            (u64 (data.addr + u64 (lba * data.media.block_size))) w.memory).2] ∧
      w'.memory = (E.file_read data.disk data.file buf len
            (u64 (data.addr + u64 (lba * data.media.block_size))) w.memory).1 ∧
      w'.progress = w.progress := by
  simp only [passes_validation, Bool.and_eq_true, decide_eq_true_eq] at hpass
  obtain ⟨⟨⟨⟨hid, hz⟩, hal⟩, hlba⟩, hchk⟩ := hpass
  have hlba' : ¬ lba > data.media.last_block := by omega
  have hchk' : ¬ u64 (u64 (lba + len / data.media.block_size) + 2 ^ 64 - 1)
      > data.media.last_block := by omega
  let offset := u64 (data.addr + u64 (lba * data.media.block_size))
  let r := E.file_read data.disk data.file buf len offset w.memory
  refine ⟨{ memory := r.1, progress := w.progress,
            calls := w.calls ++ [Call.file_read data.disk data.file buf len offset r.2] },
    ?_, rfl, rfl, rfl⟩
  simp only [blockio_read, hbuf, hlen, htype, hid, hz, hal, hlba', hchk', hmem]
  cases h : w.progress <;> simp [r, offset]

/-- Witness for C9 (amended): the failing backing store of the counterexample. -/
theorem blockio_read_file_backed_witness :
    ∃ w', blockio_read platform64 failingCollaborators fileDisk scenarioWorld
            1 50 512 0x200000 = some (GRUB_EFI_SUCCESS, w') ∧
      w'.calls = [Call.file_read false 7 0x200000 512 29696 false] := by
  obtain ⟨w', h1, h2, _⟩ :=
    blockio_read_file_backed platform64 failingCollaborators fileDisk scenarioWorld
      1 50 512 0x200000 (by decide) rfl (by decide) (by decide) (by decide)
  exact ⟨w', h1, h2⟩

/-! ## The interrupt wrapper -/

/-- Bit `i` of `0xFFFFFFFE` is set exactly for `1 ≤ i < 32`. -/
theorem testBit_mask (i : Nat) :
    (0xFFFFFFFE : Nat).testBit i = (decide (i ≠ 0) && decide (i < 32)) := by
  cases i with
  | zero => decide
  | succ k =>
    have h : (0xFFFFFFFE : Nat) / 2 = 2 ^ 31 - 1 := by decide
    rw [Nat.testBit_succ, h, Nat.testBit_two_pow_sub_one]
    simp only [ne_eq, Nat.add_one_ne_zero, not_false_eq_true, decide_True, Bool.true_and,
      decide_eq_decide]
    omega

/-- Clearing bit 0 of a 16-bit word with the wrapper's mask leaves every other bit. -/
theorem clear_bit0 (v : Nat) (hv : v < 2 ^ 16) (i : Nat) :
    ((v &&& 0xFFFFFFFE) % 2 ^ 16).testBit i = (decide (i ≠ 0) && v.testBit i) := by
  rw [Nat.testBit_mod_two_pow, Nat.testBit_land, testBit_mask]
  by_cases h16 : i < 16
  · have h32 : i < 32 := by omega
    simp [h16, h32, Bool.and_comm]
  · have hlt : v < 2 ^ i := lt_of_lt_of_le hv (Nat.pow_le_pow_right (by decide) (by omega))
    simp [h16, Nat.testBit_lt_two_pow hlt]

/-- A stored 16-bit word is read back. -/
theorem read16_write16 (m : Mem) (a v : Nat) (hv : v < 2 ^ 16) :
    read16 (write16 m a v) a = v := by
  have h1 : a + 1 ≠ a := by omega
  simp only [read16, write16, h1, if_true, if_false]
  omega

/-- A word read from memory is below `2 ^ 16`. -/
theorem read16_lt (m : Mem) (a : Nat) : read16 m a < 2 ^ 16 := by
  have h1 := (m a).isLt
  have h2 := (m (a + 1)).isLt
  unfold read16
  omega

/-- The masked word is the word minus its lowest bit. -/
theorem clear_bit0_value (v : Nat) (hv : v < 2 ^ 16) :
    (v &&& 0xFFFFFFFE) % 2 ^ 16 = v - v % 2 := by
  apply Nat.eq_of_testBit_eq
  intro i
  rw [clear_bit0 v hv i]
  have h2 : v - v % 2 = 2 * (v / 2) := by omega
  rw [h2]
  cases i with
  | zero => simp [Nat.testBit_zero]
  | succ k =>
    rw [Nat.testBit_succ, Nat.testBit_succ]
    simp

/-- C10: `call_interrupt_wrapper` is a function of its inputs that dispatches three ways.
(1) Vector `0x13`: the only call is the INT 13 emulator; parameters and memory are as
it leaves them.  (2) Vector `0x10`, `AX = 0x4f01` and `cmdline_gui` not set: the only
call is the real handler, given the parameters as received; afterwards the word at the
`ES:DI` address taken on entry is the word the handler left with bit 0 cleared and every
other bit as it was, and no other byte of memory and no parameter differs from what the
handler left.  (3) Otherwise: the only call is the real handler, given the parameters
as received, and parameters and memory are exactly as it leaves them. -/
theorem call_interrupt_wrapper_dispatch (B : BiosCollaborators)
    (params : bootapp_callback_params) (m : Mem) :
    (params.vector_interrupt = 0x13 →
      call_interrupt_wrapper B params m =
        ((B.emulate_int13 params m).1, (B.emulate_int13 params m).2,
          [BiosCall.emulate_int13 params])) ∧
    (params.vector_interrupt = 0x10 → params.ax = 0x4f01 → B.cmdline_gui = false →
      (call_interrupt_wrapper B params m).1 = (B.call_interrupt params m).1 ∧
      (call_interrupt_wrapper B params m).2.2 = [BiosCall.call_interrupt params] ∧
      (∀ i, (read16 (call_interrupt_wrapper B params m).2.1
                (B.REAL_PTR params.es params.di)).testBit i =
          (decide (i ≠ 0) &&
            (read16 (B.call_interrupt params m).2 (B.REAL_PTR params.es params.di)).testBit
              i)) ∧
      (∀ x, x ≠ B.REAL_PTR params.es params.di →
        (call_interrupt_wrapper B params m).2.1 x = (B.call_interrupt params m).2 x) ∧
      ((call_interrupt_wrapper B params m).2.1 (B.REAL_PTR params.es params.di)).val =
        ((B.call_interrupt params m).2 (B.REAL_PTR params.es params.di)).val -
          ((B.call_interrupt params m).2 (B.REAL_PTR params.es params.di)).val % 2) ∧
    (params.vector_interrupt ≠ 0x13 →
      ¬ (params.vector_interrupt = 0x10 ∧ params.ax = 0x4f01 ∧ B.cmdline_gui = false) →
      call_interrupt_wrapper B params m =
        ((B.call_interrupt params m).1, (B.call_interrupt params m).2,
          [BiosCall.call_interrupt params])) := by
  refine ⟨?_, ?_, ?_⟩
  · intro h
    simp [call_interrupt_wrapper, h]
  · intro hv hax hgui
    have h13 : params.vector_interrupt ≠ 0x13 := by omega
    generalize hr : B.call_interrupt params m = r
    generalize ha : B.REAL_PTR params.es params.di = a
    have hout : call_interrupt_wrapper B params m =
        (r.1, write16 r.2 a ((read16 r.2 a &&& 0xFFFFFFFE) % 2 ^ 16),
          [BiosCall.call_interrupt params]) := by
      simp [call_interrupt_wrapper, hv, hax, hgui, hr, ha]
    rw [hout]
    have hlt := read16_lt r.2 a
    have hval := clear_bit0_value (read16 r.2 a) hlt
    have hlo := (r.2 a).isLt
    have hhi := (r.2 (a + 1)).isLt
    refine ⟨rfl, rfl, ?_, ?_, ?_⟩
    · intro i
      show (read16 (write16 r.2 a ((read16 r.2 a &&& 0xFFFFFFFE) % 2 ^ 16)) a).testBit i = _
      rw [read16_write16 _ _ _ (Nat.mod_lt _ (by decide)), clear_bit0 _ hlt]
    · intro x hx
      show write16 r.2 a ((read16 r.2 a &&& 0xFFFFFFFE) % 2 ^ 16) x = r.2 x
      rw [hval]
      by_cases hx1 : x = a + 1
      · subst hx1
        apply Fin.ext
        simp only [write16, hx, if_true, if_false, read16]
        omega
      · simp only [write16, hx, hx1, if_false]
    · show (write16 r.2 a ((read16 r.2 a &&& 0xFFFFFFFE) % 2 ^ 16) a).val = _
      rw [hval]
      simp only [write16, if_true, read16]
      omega
  · intro h13 hne
    simp [call_interrupt_wrapper, h13, hne]

/-- Witness for C10: a VESA mode query without the graphical flag.  The handler stores
`0x009B`; on return the word at `2000:0100` is `0x009A`, `AX` is what the handler set, and
the handler was the only call. -/
theorem call_interrupt_wrapper_dispatch_witness :
    (call_interrupt_wrapper (vesaBios false) vesaQuery patternMem).1
      = ((vesaBios false).call_interrupt vesaQuery patternMem).1 ∧
    (call_interrupt_wrapper (vesaBios false) vesaQuery patternMem).2.2
      = [BiosCall.call_interrupt vesaQuery] ∧
    read16 ((vesaBios false).call_interrupt vesaQuery patternMem).2 0x20100 = 0x009B ∧
    read16 (call_interrupt_wrapper (vesaBios false) vesaQuery patternMem).2.1 0x20100
      = 0x009A := by
  obtain ⟨h1, h2, _, _, _⟩ :=
    (call_interrupt_wrapper_dispatch (vesaBios false) vesaQuery patternMem).2.1
      (by decide) (by decide) rfl
  exact ⟨h1, h2, by decide, by decide⟩

/-! ## The handoff driver: region descriptors -/

/-- The pages `page_start`, `page_len` describe cover the byte range, and no smaller page
count does. -/
theorem page_cover (B : BootEnv) (start stop : Nat) (hps : 0 < B.PAGE_SIZE) :
    page_start B start * B.PAGE_SIZE ≤ start ∧
    stop ≤ (page_start B start + page_len B start stop) * B.PAGE_SIZE ∧
    (∀ n, stop ≤ (page_start B start + n) * B.PAGE_SIZE → page_len B start stop ≤ n) := by
  unfold page_len page_start
  generalize hsp : start / B.PAGE_SIZE = sp
  generalize hx : stop - sp * B.PAGE_SIZE = x
  have h1 : sp * B.PAGE_SIZE ≤ start := by
    rw [← hsp]
    exact Nat.div_mul_le_self start B.PAGE_SIZE
  have h2 := Nat.div_add_mod (x + B.PAGE_SIZE - 1) B.PAGE_SIZE
  have h3 := Nat.mod_lt (x + B.PAGE_SIZE - 1) hps
  generalize hq : (x + B.PAGE_SIZE - 1) / B.PAGE_SIZE = q at h2
  have h4 : x ≤ q * B.PAGE_SIZE := by
    rw [Nat.mul_comm] at h2
    omega
  refine ⟨h1, ?_, ?_⟩
  · rw [Nat.add_mul]
    omega
  · intro n hn
    rw [Nat.add_mul] at hn
    have h5 : x ≤ n * B.PAGE_SIZE := by omega
    have h6 : x + B.PAGE_SIZE - 1 < (n + 1) * B.PAGE_SIZE := by
      rw [Nat.add_mul]
      omega
    have h7 := (Nat.div_lt_iff_lt_mul hps).mpr h6
    omega

/-- C11: when `wimboot_boot` has a `bootmgr`, `load_pe` succeeds with image `pe`, the
descriptor set has its `NUM_REGIONS = 3` slots, `PAGE_SIZE` is positive and the ranges
`[pe.base, pe.base + pe.len)` and `[initrd, initrd + initrd_len)` lie in the address
space, the jump is reached with `pe_base = pe.base`, `pe_len = pe.len` and the three
regions in the order emulator image `[_start, _end)`, loaded executable, auxiliary
payload; each has `start_page = start / PAGE_SIZE` and
`num_pages = ceil((end - start_page * PAGE_SIZE) / PAGE_SIZE)`, and its pages
`[start_page * PAGE_SIZE, (start_page + num_pages) * PAGE_SIZE)` contain the byte
range. -/
theorem wimboot_boot_regions (B : BootEnv) (f : vdisk_file) (bootapps : bootapps_t)
    (m m' : Mem) (pe : loaded_pe)
    (hps : 0 < B.PAGE_SIZE) (hslots : bootapps.regions.length = NUM_REGIONS)
    (hload : B.load_pe (read_bootmgr B f m).1 f.len (read_bootmgr B f m).2.1
               = (m', some pe))
    (hpe : pe.base + pe.len < 2 ^ B.size_bits)
    (hrd : B.initrd + B.initrd_len < 2 ^ B.size_bits) :
    ∃ d calls, wimboot_boot B (some f) bootapps m = BootOutcome.entered d m' calls ∧
      d.pe_base = pe.base ∧ d.pe_len = pe.len ∧
      d.regions =
        [ { start_page := B._start / B.PAGE_SIZE,
            num_pages := (B._end - B._start / B.PAGE_SIZE * B.PAGE_SIZE + B.PAGE_SIZE - 1)
                           / B.PAGE_SIZE },
          { start_page := pe.base / B.PAGE_SIZE,
            num_pages := (pe.base + pe.len - pe.base / B.PAGE_SIZE * B.PAGE_SIZE
                           + B.PAGE_SIZE - 1) / B.PAGE_SIZE },
          { start_page := B.initrd / B.PAGE_SIZE,
            num_pages := (B.initrd + B.initrd_len - B.initrd / B.PAGE_SIZE * B.PAGE_SIZE
                           + B.PAGE_SIZE - 1) / B.PAGE_SIZE } ] ∧
      (∀ g ∈ d.regions.zip
          [ (B._start, B._end), (pe.base, pe.base + pe.len),
            (B.initrd, B.initrd + B.initrd_len) ],
        g.1.start_page * B.PAGE_SIZE ≤ g.2.1 ∧
          g.2.2 ≤ (g.1.start_page + g.1.num_pages) * B.PAGE_SIZE) := by
  obtain ⟨r0, r1, r2, hregs⟩ : ∃ r0 r1 r2, bootapps.regions = [r0, r1, r2] := by
    match h : bootapps.regions, hslots with
    | [a, b, c], _ => exact ⟨a, b, c, rfl⟩
  have e1 : size_t B (pe.base + pe.len) = pe.base + pe.len := Nat.mod_eq_of_lt hpe
  have e2 : size_t B (B.initrd + B.initrd_len) = B.initrd + B.initrd_len :=
    Nat.mod_eq_of_lt hrd
  have c0 := page_cover B B._start B._end hps
  have c1 := page_cover B pe.base (pe.base + pe.len) hps
  have c2 := page_cover B B.initrd (B.initrd + B.initrd_len) hps
  let before := (read_bootmgr B f m).2.2 ++ [BootCall.load_pe (read_bootmgr B f m).1 f.len]
  refine ⟨{ pe_base := pe.base, pe_len := pe.len,
            regions := [⟨page_start B B._start, page_len B B._start B._end⟩,
              ⟨page_start B pe.base, page_len B pe.base (pe.base + pe.len)⟩,
              ⟨page_start B B.initrd, page_len B B.initrd (B.initrd + B.initrd_len)⟩] },
    (if B.cmdline_pause = true then before ++ [BootCall.pause] else before)
      ++ [BootCall.entry pe.entry], ?_, rfl, rfl, rfl, ?_⟩
  · simp only [wimboot_boot, hload, hregs, e1, e2, List.set, WIMBOOT_REGION, PE_REGION,
      INITRD_REGION, before]
  · intro g hg
    simp only [List.zip_cons_cons, List.zip_nil_right, List.mem_cons, List.not_mem_nil,
      or_false] at hg
    rcases hg with hg | hg | hg
    · rw [hg]
      exact ⟨c0.1, c0.2.1⟩
    · rw [hg]
      exact ⟨c1.1, c1.2.1⟩
    · rw [hg]
      exact ⟨c2.1, c2.2.1⟩

/-- Witness for C11, the scenario of the specification: a 70000-byte image loaded at the
4096-aligned address `0x400000` gets `start_page = 0x400000 / 4096 = 1024` and
`num_pages = 18`, in slot 1, between the emulator image and the payload. -/
theorem wimboot_boot_regions_witness :
    ∃ d calls, wimboot_boot (bootEnv32 0x1000000) (some bootmgrFile) bootapps_initial
        patternMem = BootOutcome.entered d patternMem calls ∧
      d.pe_base = 0x400000 ∧ d.pe_len = 70000 ∧
      d.regions = [⟨7, 3⟩, ⟨1024, 18⟩, ⟨4096, 733⟩] := by
  obtain ⟨d, calls, h1, h2, h3, h4, _⟩ :=
    wimboot_boot_regions (bootEnv32 0x1000000) bootmgrFile bootapps_initial patternMem
      patternMem { base := 0x400000, len := 70000, entry := 0x401000 }
      (by decide) (by decide) rfl (by decide) (by decide)
  exact ⟨d, calls, h1, h2, h3, h4.trans (by decide)⟩

/-! ## The handoff driver: the load address -/

/-- Bit `i` of the complement of `2 ^ k - 1` in `w` bits is set exactly for `k ≤ i < w`. -/
theorem testBit_page_mask (w k i : Nat) (hk : k ≤ w) :
    (2 ^ w - 1 - (2 ^ k - 1)).testBit i = (decide (i < w) && decide (k ≤ i)) := by
  have hpos : 0 < 2 ^ k := Nat.two_pow_pos k
  have hle : 2 ^ k ≤ 2 ^ w := Nat.pow_le_pow_right (by decide) hk
  have hlt : 2 ^ k - 1 < 2 ^ w := by omega
  have he : 2 ^ w - 1 - (2 ^ k - 1) = 2 ^ w - (2 ^ k - 1 + 1) := by omega
  rw [he, Nat.testBit_two_pow_sub_succ hlt, Nat.testBit_two_pow_sub_one]
  by_cases h : i < k
  · have : ¬ k ≤ i := by omega
    simp [h, this]
  · have : k ≤ i := by omega
    simp [h, this]

/-- Masking off the low `k` bits of a `w`-bit value rounds it down to a multiple of
`2 ^ k`. -/
theorem and_page_mask (w k x : Nat) (hk : k ≤ w) (hx : x < 2 ^ w) :
    x &&& (2 ^ w - 1 - (2 ^ k - 1)) = x / 2 ^ k * 2 ^ k := by
  apply Nat.eq_of_testBit_eq
  intro i
  rw [Nat.testBit_land, testBit_page_mask w k i hk, Nat.mul_comm, Nat.testBit_mul_pow_two,
    ← Nat.shiftRight_eq_div_pow, Nat.testBit_shiftRight]
  by_cases hik : k ≤ i
  · have hadd : k + (i - k) = i := by omega
    by_cases hiw : i < w
    · simp [hik, hiw, hadd]
    · have hlt : x < 2 ^ i :=
        lt_of_lt_of_le hx (Nat.pow_le_pow_right (by decide) (by omega))
      simp [hik, hiw, hadd, Nat.testBit_lt_two_pow hlt]
  · simp [hik]

/-- With `PAGE_SIZE` a power of two and `len + PAGE_SIZE - 1` representable, `padded_len`
is `len` rounded up to a multiple of `PAGE_SIZE`. -/
theorem padded_len_exact (B : BootEnv) (len k : Nat) (hps : B.PAGE_SIZE = 2 ^ k)
    (hov : len + B.PAGE_SIZE - 1 < 2 ^ B.size_bits) :
    padded_len B len = (len + B.PAGE_SIZE - 1) / B.PAGE_SIZE * B.PAGE_SIZE := by
  have hpos : 0 < 2 ^ k := Nat.two_pow_pos k
  have hM : 0 < 2 ^ B.size_bits := Nat.two_pow_pos _
  have hkw : k ≤ B.size_bits := by
    by_contra hc
    have : 2 ^ (B.size_bits + 1) ≤ 2 ^ k := Nat.pow_le_pow_right (by decide) (by omega)
    rw [Nat.pow_succ] at this
    omega
  have h1 : size_t B (size_t B (len + B.PAGE_SIZE) + 2 ^ B.size_bits - 1)
      = len + B.PAGE_SIZE - 1 := by
    unfold size_t
    by_cases he : len + B.PAGE_SIZE = 2 ^ B.size_bits
    · rw [he, Nat.mod_self, Nat.zero_add, Nat.mod_eq_of_lt (by omega)]
    · have hlt : len + B.PAGE_SIZE < 2 ^ B.size_bits := by omega
      rw [Nat.mod_eq_of_lt hlt]
      have e : len + B.PAGE_SIZE + 2 ^ B.size_bits - 1
          = len + B.PAGE_SIZE - 1 + 2 ^ B.size_bits := by omega
      rw [e, Nat.add_mod_right, Nat.mod_eq_of_lt hov]
  have h2 : size_t B (B.PAGE_SIZE + 2 ^ B.size_bits - 1) = 2 ^ k - 1 := by
    unfold size_t
    have e : B.PAGE_SIZE + 2 ^ B.size_bits - 1 = 2 ^ k - 1 + 2 ^ B.size_bits := by omega
    rw [e, Nat.add_mod_right, Nat.mod_eq_of_lt (by omega)]
  unfold padded_len
  rw [h1, h2, and_page_mask B.size_bits k _ hkw hov, hps]

/-- Rounding up to a multiple of a positive page size gives the least multiple that is at
least the length, and it adds fewer than a page. -/
theorem round_up_least (len ps : Nat) (hps : 0 < ps) :
    ((len + ps - 1) / ps * ps) % ps = 0 ∧ len ≤ (len + ps - 1) / ps * ps ∧
    (len + ps - 1) / ps * ps < len + ps ∧
    (∀ q, q % ps = 0 → len ≤ q → (len + ps - 1) / ps * ps ≤ q) := by
  have h2 := Nat.div_add_mod (len + ps - 1) ps
  have h3 := Nat.mod_lt (len + ps - 1) hps
  generalize hq : (len + ps - 1) / ps = t at h2
  rw [Nat.mul_comm] at h2
  refine ⟨Nat.mul_mod_left t ps, by omega, by omega, ?_⟩
  intro q hq0 hlq
  obtain ⟨c, hc⟩ := Nat.dvd_of_mod_eq_zero hq0
  have h6 : len + ps - 1 < (c + 1) * ps := by
    rw [Nat.add_mul, Nat.mul_comm c ps, ← hc]
    omega
  have h7 : t < c + 1 := by
    rw [← hq]
    exact (Nat.div_lt_iff_lt_mul hps).mpr h6
  rw [hc, Nat.mul_comm ps c]
  exact Nat.mul_le_mul_right ps (by omega)

/-- The calls of `wimboot_boot` begin with those of lines 210-217 and the call of
`load_pe` on `raw_pe`; only `pause` and the jump can follow. -/
theorem wimboot_boot_calls (B : BootEnv) (f : vdisk_file) (bootapps : bootapps_t)
    (m : Mem) :
    ∃ rest, outcome_calls (wimboot_boot B (some f) bootapps m) =
        (read_bootmgr B f m).2.2 ++ BootCall.load_pe (read_bootmgr B f m).1 f.len :: rest ∧
      ∀ c ∈ rest, c = BootCall.pause ∨ ∃ a, c = BootCall.entry a := by
  cases hr : (B.load_pe (read_bootmgr B f m).1 f.len (read_bootmgr B f m).2.1).2 with
  | none =>
    refine ⟨[], ?_, by simp⟩
    simp only [wimboot_boot, hr, outcome_calls]
  | some pe =>
    by_cases hp : B.cmdline_pause = true
    · refine ⟨[BootCall.pause, BootCall.entry pe.entry], ?_, by simp⟩
      simp [wimboot_boot, hr, outcome_calls, hp]
    · refine ⟨[BootCall.entry pe.entry], ?_, by simp⟩
      simp [wimboot_boot, hr, outcome_calls, hp]

/-- Counterexample to C12 as stated: a 32-bit build with 4096-byte pages, a page-aligned
payload at `initrd = 0x10000` and a non-resident executable of 70000 bytes.  Every
premise of the claim holds and `P = 73728`, but `P` exceeds `initrd`: the pointer
subtraction wraps, the load address is `4294959104`, which is not `initrd - P`, and the
loaded range ends above `initrd`, not at or below it. -/
theorem wimboot_boot_load_address_counterexample :
    bootmgrFile.read ≠ (bootEnv32 0x10000).read_file ∧
    (bootEnv32 0x10000).PAGE_SIZE = 2 ^ 12 ∧
    bootmgrFile.len + (bootEnv32 0x10000).PAGE_SIZE - 1 < 2 ^ (bootEnv32 0x10000).size_bits ∧
    (bootEnv32 0x10000).initrd % (bootEnv32 0x10000).PAGE_SIZE = 0 ∧
    padded_len (bootEnv32 0x10000) bootmgrFile.len = 73728 ∧
    (read_bootmgr (bootEnv32 0x10000) bootmgrFile patternMem).1 = 4294959104 ∧
    ((read_bootmgr (bootEnv32 0x10000) bootmgrFile patternMem).1 : Int)
      ≠ ((bootEnv32 0x10000).initrd : Int) - 73728 ∧
    ¬ ((read_bootmgr (bootEnv32 0x10000) bootmgrFile patternMem).1 + bootmgrFile.len
        ≤ (bootEnv32 0x10000).initrd) := by
  refine ⟨by decide, by decide, by decide, by decide, by decide, by decide, by decide,
    by decide⟩

/-- C12 (amended): in `wimboot_boot` with a `bootmgr` whose `read` function is not
`read_file`, if `PAGE_SIZE` is a power of two, `len + PAGE_SIZE - 1` does not overflow a
`size_t`, `initrd` is an address and `P = (len + PAGE_SIZE - 1) & ~(PAGE_SIZE - 1)` is at
most `initrd`, then `P` is the least multiple of `PAGE_SIZE` that is at least `len`, the
executable is read to `raw_pe = initrd - P` and loaded from there, the range
`[raw_pe, raw_pe + len)` ends at or below `initrd` and shares no byte with the payload
`[initrd, initrd + initrd_len)`, fewer than `PAGE_SIZE` bytes lie between its end and
`initrd`, and `raw_pe` is page-aligned when `initrd` is.  When the `read` function is
`read_file`, `raw_pe` is the file's resident address, memory is untouched and no read
is made: the calls are `load_pe` on that address, then at most `pause` and the jump. -/
theorem wimboot_boot_load_address (B : BootEnv) (f : vdisk_file) (bootapps : bootapps_t)
    (m : Mem) :
    (f.read = B.read_file →
      read_bootmgr B f m = (f.resident, m, []) ∧
      ∃ rest, outcome_calls (wimboot_boot B (some f) bootapps m)
          = BootCall.load_pe f.resident f.len :: rest ∧
        ∀ c ∈ rest, c = BootCall.pause ∨ ∃ a, c = BootCall.entry a) ∧
    (f.read ≠ B.read_file →
      ∀ k, B.PAGE_SIZE = 2 ^ k → f.len + B.PAGE_SIZE - 1 < 2 ^ B.size_bits →
      B.initrd < 2 ^ B.size_bits → padded_len B f.len ≤ B.initrd →
      padded_len B f.len % B.PAGE_SIZE = 0 ∧ f.len ≤ padded_len B f.len ∧
      (∀ q, q % B.PAGE_SIZE = 0 → f.len ≤ q → padded_len B f.len ≤ q) ∧
      (read_bootmgr B f m).1 = B.initrd - padded_len B f.len ∧
      (read_bootmgr B f m).2.1
        = B.file_read f (B.initrd - padded_len B f.len) 0 f.len m ∧
      (∃ rest, outcome_calls (wimboot_boot B (some f) bootapps m)
          = BootCall.read f (B.initrd - padded_len B f.len) 0 f.len ::
            BootCall.load_pe (B.initrd - padded_len B f.len) f.len :: rest) ∧
      (B.initrd - padded_len B f.len) + f.len ≤ B.initrd ∧
      (∀ a, B.initrd - padded_len B f.len ≤ a →
        a < (B.initrd - padded_len B f.len) + f.len →
        ¬ (B.initrd ≤ a ∧ a < B.initrd + B.initrd_len)) ∧
      B.initrd - ((B.initrd - padded_len B f.len) + f.len) < B.PAGE_SIZE ∧
      (B.initrd % B.PAGE_SIZE = 0 →
        (B.initrd - padded_len B f.len) % B.PAGE_SIZE = 0)) := by
  obtain ⟨rest, hcalls, hrest⟩ := wimboot_boot_calls B f bootapps m
  refine ⟨?_, ?_⟩
  · intro hres
    have hrb : read_bootmgr B f m = (f.resident, m, []) := by
      simp [read_bootmgr, hres]
    refine ⟨hrb, rest, ?_, hrest⟩
    rw [hcalls, hrb]
    rfl
  · intro hnot k hps hov hinitrd hroom
    have hpos : 0 < B.PAGE_SIZE := by
      rw [hps]
      exact Nat.two_pow_pos k
    have hP := padded_len_exact B f.len k hps hov
    obtain ⟨l1, l2, l3, l4⟩ := round_up_least f.len B.PAGE_SIZE hpos
    rw [← hP] at l1 l2 l3 l4
    have hraw : size_t B (B.initrd + 2 ^ B.size_bits - padded_len B f.len)
        = B.initrd - padded_len B f.len := by
      unfold size_t
      have e : B.initrd + 2 ^ B.size_bits - padded_len B f.len
          = B.initrd - padded_len B f.len + 2 ^ B.size_bits := by omega
      rw [e, Nat.add_mod_right, Nat.mod_eq_of_lt (by omega)]
    have hrb : read_bootmgr B f m =
        (B.initrd - padded_len B f.len,
          B.file_read f (B.initrd - padded_len B f.len) 0 f.len m,
          [BootCall.read f (B.initrd - padded_len B f.len) 0 f.len]) := by
      simp [read_bootmgr, hnot, hraw]
    refine ⟨l1, l2, l4, ?_, ?_, ⟨rest, ?_⟩, by omega, ?_, by omega, ?_⟩
    · rw [hrb]
    · rw [hrb]
    · rw [hcalls, hrb]
      rfl
    · intro a h1 h2
      omega
    · intro hal
      have d1 : B.PAGE_SIZE ∣ B.initrd := Nat.dvd_of_mod_eq_zero hal
      have d2 : B.PAGE_SIZE ∣ padded_len B f.len := Nat.dvd_of_mod_eq_zero l1
      exact Nat.mod_eq_zero_of_dvd (Nat.dvd_sub' d1 d2)

/-- Witness for C12 (amended): 4096-byte pages, a payload at `0x1000000` and a
non-resident executable of 70000 bytes give `P = 73728` and `raw_pe = 0xFEE000`, a
page-aligned address 3728 bytes of slack below the payload. -/
theorem wimboot_boot_load_address_witness :
    (read_bootmgr (bootEnv32 0x1000000) bootmgrFile patternMem).1 = 0x1000000 - 73728 ∧
    (0x1000000 - 73728) + 70000 ≤ 0x1000000 ∧
    (0x1000000 - 73728) % 4096 = 0 := by
  have hP : padded_len (bootEnv32 0x1000000) bootmgrFile.len = 73728 := by decide
  obtain ⟨_, _, _, h4, _, _, _, _, _, _⟩ :=
    (wimboot_boot_load_address (bootEnv32 0x1000000) bootmgrFile bootapps_initial
      patternMem).2 (by decide) 12 (by decide) (by decide) (by decide) (by decide)
  rw [hP] at h4
  exact ⟨h4, by decide, by decide⟩

end Wimboot
